import Mathlib

/-
Verification development for a SIP stack (RFC 3261): message parser,
connection pool, and client transaction layer. The Go source is embedded
shallowly: strings become lists of characters, Go int arithmetic becomes
Int with explicit wrapping where it matters, fallible functions return
Option or Except, and computations that can hit a Go runtime panic (index
out of range, slice bounds) return an explicit crash outcome.
-/

namespace SipGo

/-- Index of the first occurrence of a character in a char list (Go
strings.Index with a one-byte pattern), or none when absent. -/
def charIndex : List Char → Char → Option Nat
  | [], _ => none
  | c :: cs, t => if c = t then some 0 else (charIndex cs t).map (· + 1)

/-- Whether the pattern occurs at the head of the text. -/
def headMatch : List Char → List Char → Bool
  | _, [] => true
  | [], _ :: _ => false
  | c :: cs, p :: ps => c = p && headMatch cs ps

/-- Go strings.Index over char lists: index of the first occurrence of the
pattern, or none when absent (the source receives -1 in that case). -/
def subIndex : List Char → List Char → Option Nat
  | [], p => if p.isEmpty then some 0 else none
  | c :: cs, p => if headMatch (c :: cs) p then some 0 else (subIndex cs p).map (· + 1)

/-- The double-CRLF separator between the header section and the body. -/
def crlfcrlf : List Char := ['\r', '\n', '\r', '\n']

/-- getBodyLength from the parser source: bodyStart is strings.Index of the
first CRLF CRLF plus 4 (so 3 when the index is -1), and the result is the Go
int len(s) - bodyStart. -/
def getBodyLength (data : List Char) : Int :=
  let idx : Int :=
    match subIndex data crlfcrlf with
    | some i => (i : Int)
    | none => -1
  let bodyStart := idx + 4
  (data.length : Int) - bodyStart

/-- The mutable parser fields consulted by parser.Write (struct parser in
the source): the framing mode, the stopped flag and the sticky terminal
error field. -/
structure ParserState where
  streamed : Bool
  stopped : Bool
  terminalErr : Option String
deriving DecidableEq

/-- Result of parser.Write: the (n, err) return value, and the
[bodyLength, len(data)] pair sent on the bodyLengths channel in datagram
mode (none in stream mode or when the write is refused). -/
structure WriteOutcome where
  n : Nat
  err : Option String
  queuedLen : Option (Int × Nat)
deriving DecidableEq

/-- parser.Write from the source. The terminal-error check at the top of
Write is commented out in the source, so only the stopped flag is
consulted; in datagram mode the [getBodyLength data, len(data)] pair is
enqueued for the parse task and the data is appended to the input buffer. -/
def parserWrite (p : ParserState) (data : List Char) : WriteOutcome :=
  if p.stopped then
    { n := 0, err := some "ParserWriteError", queuedLen := none }
  else
    { n := data.length, err := none,
      queuedLen :=
        if p.streamed then none else some (getBodyLength data, data.length) }

/-- Go strings.Split with a one-character separator: split at every
occurrence, keeping empty pieces. -/
def splitChar : List Char → Char → List (List Char)
  | [], _ => [[]]
  | c :: cs, sep =>
    if c = sep then [] :: splitChar cs sep
    else
      match splitChar cs sep with
      | [] => [[c]]
      | h :: t => (c :: h) :: t

/-- Decimal value of a digit list (most significant first). -/
def digitsVal (l : List Char) : Nat :=
  l.foldl (fun acc c => acc * 10 + (c.toNat - 48)) 0

/-- Go strconv.ParseUint(s, 10, bitSize): the string must be nonempty and
all decimal digits, and the value must be below 2^bitSize; any violation
(including range overflow) yields an error, modelled as none. -/
def goParseUint (l : List Char) (bitSize : Nat) : Option Nat :=
  if l.isEmpty then none
  else if l.all Char.isDigit then
    if digitsVal l < 2 ^ bitSize then some (digitsVal l) else none
  else none

/-- parseStatusLine from the source: split the status line on single
spaces; fewer than three fields is an error; the second field is parsed as
an unsigned integer with bitSize 16; the reason phrase is
strings.Join(parts[2:], "") - concatenation with an EMPTY separator. -/
def parseStatusLine (line : List Char) : Option (List Char × Nat × List Char) :=
  let parts := splitChar line ' '
  if parts.length < 3 then none
  else
    match goParseUint (parts.getD 1 []) 16 with
    | none => none
    | some code => some (parts.getD 0 [], code, (parts.drop 2).flatten)

/-- Join a list of fields with a separator character (left inverse of
splitChar on separator-free fields). -/
def sepJoin (sep : Char) : List (List Char) → List Char
  | [] => []
  | [w] => w
  | w :: ws => w ++ sep :: sepJoin sep ws

theorem splitChar_no_sep (sep : Char) (w : List Char) (h : sep ∉ w) :
    splitChar w sep = [w] := by
  induction w with
  | nil => rfl
  | cons c cs ih =>
    have hc : c ≠ sep := fun hcs => h (hcs ▸ List.mem_cons_self c cs)
    have hcs : sep ∉ cs := fun hm => h (List.mem_cons_of_mem c hm)
    simp only [splitChar, if_neg hc, ih hcs]

theorem splitChar_word_cons (sep : Char) (w rest : List Char) (h : sep ∉ w) :
    splitChar (w ++ sep :: rest) sep = w :: splitChar rest sep := by
  induction w with
  | nil => simp [splitChar]
  | cons c cs ih =>
    have hc : c ≠ sep := fun hcs => h (hcs ▸ List.mem_cons_self c cs)
    have hcs : sep ∉ cs := fun hm => h (List.mem_cons_of_mem c hm)
    have ihr := ih hcs
    simp only [List.cons_append, splitChar, if_neg hc, List.append_eq, ihr]

theorem splitChar_sepJoin (sep : Char) (ws : List (List Char))
    (hne : ws ≠ []) (h : ∀ w ∈ ws, sep ∉ w) :
    splitChar (sepJoin sep ws) sep = ws := by
  induction ws with
  | nil => exact absurd rfl hne
  | cons w ws ih =>
    match ws with
    | [] =>
      simpa [sepJoin] using splitChar_no_sep sep w (h w (List.mem_cons_self w []))
    | w2 :: ws2 =>
      have hw : sep ∉ w := h w (List.mem_cons_self w _)
      have hrest : ∀ v ∈ w2 :: ws2, sep ∉ v := fun v hv =>
        h v (List.mem_cons_of_mem w hv)
      have ihr := ih (by simp) hrest
      simp only [sepJoin, splitChar_word_cons sep w _ hw, ihr]

/-- C1: the claim says that once the parser has failed terminally, every
subsequent Write returns the sticky terminal error with n = 0 and no data
is accepted. The source contradicts its own interface documentation (the
Parser interface promises n = 0 and the error after a fatal error): the
terminal-error check in Write is commented out, so a parser carrying a
sticky terminal error (e.g. MalformedMessage in stream mode) still accepts
the write, returning n = len(data) with no error, and the data is queued
for parsing. -/
theorem c1_write_after_terminal_error_accepts :
    parserWrite
        { streamed := true, stopped := false,
          terminalErr := some "MalformedMessage" } ['x'] =
      { n := 1, err := none, queuedLen := none } ∧
    ∀ e : String,
      parserWrite
          { streamed := true, stopped := false, terminalErr := some e } ['x'] ≠
        { n := 0, err := some e, queuedLen := none } := by
  refine ⟨rfl, fun e h => ?_⟩
  have hn := congrArg WriteOutcome.n h
  simp [parserWrite] at hn

/-- C10: in datagram mode, when the data of a Write contains no CRLF CRLF,
strings.Index returns -1, bodyStart becomes 3, and the body length handed
to the parse task via the bodyLengths channel is len(data) - 3; for
len(data) > 3 this is a spurious positive body length, not 0 and not an
error. -/
theorem c10_datagram_missing_blank_line_body_length (data : List Char)
    (h : subIndex data crlfcrlf = none) :
    getBodyLength data = (data.length : Int) - 3 ∧
    (parserWrite { streamed := false, stopped := false, terminalErr := none }
        data).queuedLen = some ((data.length : Int) - 3, data.length) ∧
    (3 < data.length → 0 < getBodyLength data) := by
  have hg : getBodyLength data = (data.length : Int) - 3 := by
    simp [getBodyLength, h]
  refine ⟨hg, ?_, fun h3 => ?_⟩
  · simp [parserWrite, hg]
  · rw [hg]; omega

theorem c10_witness :
    getBodyLength ['a', 'b', 'c', 'd'] = 1 ∧
    0 < getBodyLength ['a', 'b', 'c', 'd'] := by
  have h := c10_datagram_missing_blank_line_body_length ['a', 'b', 'c', 'd']
    (by decide)
  exact ⟨by simpa using h.1, h.2.2 (by decide)⟩

/-- C7 counterexample: the claim says an accepted status line has its
status code in 0-699 and its reason phrase equal to the remainder of the
line with spaces preserved. The source parses the code with bitSize 16
(so 700 is accepted) and joins the remaining fields with the EMPTY string
(so "Not Found" becomes "NotFound"). -/
theorem c7_status_line_counterexample :
    parseStatusLine "SIP/2.0 700 Not Found".data =
      some ("SIP/2.0".data, 700, "NotFound".data) ∧
    ¬(700 ≤ 699) ∧ "NotFound".data ≠ "Not Found".data := by
  refine ⟨by decide, by decide, by decide⟩

/-- C7 amended: for every status line made of a space-free version field, a
digit field whose value fits in 16 bits, and a nonempty list of space-free
reason words, parseStatusLine accepts it, the parsed status code is the
value of the digit field (any value up to 65535, not only 0-699), and the
reason phrase is the concatenation of the reason words with their
separating spaces dropped; moreover every accepted status code is below
65536. -/
theorem goParseUint_lt (l : List Char) (b v : Nat)
    (h : goParseUint l b = some v) : v < 2 ^ b := by
  unfold goParseUint at h
  split at h
  · simp at h
  · split at h
    · split at h
      · cases h
        assumption
      · simp at h
    · simp at h

theorem c7_status_line_amended (v d : List Char) (ws : List (List Char))
    (hv : ' ' ∉ v) (hd1 : d ≠ []) (hd2 : d.all Char.isDigit)
    (hd3 : digitsVal d < 65536) (hws : ws ≠ []) (hw : ∀ w ∈ ws, ' ' ∉ w) :
    parseStatusLine (sepJoin ' ' (v :: d :: ws)) =
      some (v, digitsVal d, ws.flatten) ∧
    ∀ line code rest1 rest2,
      parseStatusLine line = some (rest1, code, rest2) → code < 65536 := by
  constructor
  · have hsplit : splitChar (sepJoin ' ' (v :: d :: ws)) ' ' = v :: d :: ws := by
      refine splitChar_sepJoin ' ' (v :: d :: ws) (by simp) ?_
      intro w hmem
      rcases List.mem_cons.mp hmem with rfl | hmem2
      · exact hv
      rcases List.mem_cons.mp hmem2 with rfl | hmem3
      · intro hsp
        have := List.all_eq_true.mp hd2 ' ' hsp
        simp [Char.isDigit] at this
      · exact hw _ hmem3
    have hws1 : 0 < ws.length := List.length_pos.mpr hws
    have hlen : ¬((v :: d :: ws).length < 3) := by
      simp only [List.length_cons]
      omega
    have hparse : goParseUint d 16 = some (digitsVal d) := by
      simp [goParseUint, List.isEmpty_iff, hd1, hd2, hd3]
    have h1 : (v :: d :: ws).getD 1 [] = d := rfl
    have h0 : (v :: d :: ws).getD 0 [] = v := rfl
    unfold parseStatusLine
    rw [hsplit, if_neg hlen, h1, hparse]
    rfl
  · intro line code rest1 rest2 h
    simp only [parseStatusLine] at h
    split at h
    · simp at h
    · split at h
      · simp at h
      next val hval =>
        have hb := goParseUint_lt _ _ _ hval
        simp only [Option.some.injEq, Prod.mk.injEq] at h
        obtain ⟨-, h2, -⟩ := h
        norm_num at hb
        omega

theorem c7_witness :
    parseStatusLine (sepJoin ' ' ["SIP/2.0".data, "700".data, "Not".data,
      "Found".data]) = some ("SIP/2.0".data, 700, "NotFound".data) := by
  have h := (c7_status_line_amended "SIP/2.0".data "700".data
    ["Not".data, "Found".data] (by decide) (by decide) (by decide) (by decide)
    (by simp) (by decide)).1
  simpa using h

/-- Modelled from the spec: core.Params (whose source file is not under
src/) is an ordered key to optional-value mapping; Add appends an entry
preserving insertion order. Only fresh keys are added by the routines
verified here. -/
structure Params where
  entries : List (String × Option String)
deriving DecidableEq

def Params.add (p : Params) (k : String) (v : Option String) : Params :=
  ⟨p.entries ++ [(k, v)]⟩

def newParams : Params := ⟨[]⟩

/-- The loop state of parseParams: the scratch buffer, the pending key, the
parsingKey and inQuotes flags, the accumulated map and the consumed
count. -/
structure PPState where
  buffer : List Char
  key : String
  parsingKey : Bool
  inQuotes : Bool
  params : Params
  consumed : Nat
deriving DecidableEq

/-- The code after parseParams's loop (also reached by breaking at the end
delimiter): unclosed quotes are an error; a pending key is added as a
singleton when permitted and is an error otherwise; a pending value is
added under the pending key. -/
def ppFinish (permitSingletons : Bool) (st : PPState) :
    Except String (Params × Nat) :=
  if st.inQuotes then
    .error "unclosed quotes in parameter string"
  else if st.parsingKey && permitSingletons then
    .ok (st.params.add (String.mk st.buffer) none, st.consumed)
  else if st.parsingKey then
    .error "singleton param when parsing params which disallow singletons"
  else
    .ok (st.params.add st.key (some (String.mk st.buffer)), st.consumed)

/-- The character loop of parseParams, one step per source byte, switching
in the source's order on: the end delimiter, the separator, a double
quote, an equals sign, and the default case (unquoted ABNF whitespace is
skipped, other characters accumulate in the buffer). -/
def ppLoop (sep endc : Char) (quoteValues permitSingletons : Bool) :
    List Char → PPState → Except String (Params × Nat)
  | [], st => ppFinish permitSingletons st
  | c :: rest, st =>
    if c = endc then
      if st.inQuotes then
        ppLoop sep endc quoteValues permitSingletons rest
          { st with buffer := st.buffer ++ [endc], consumed := st.consumed + 1 }
      else
        ppFinish permitSingletons st
    else if c = sep then
      if st.inQuotes then
        ppLoop sep endc quoteValues permitSingletons rest
          { st with buffer := st.buffer ++ [sep], consumed := st.consumed + 1 }
      else if st.parsingKey && permitSingletons then
        ppLoop sep endc quoteValues permitSingletons rest
          { st with params := st.params.add (String.mk st.buffer) none,
                    buffer := [], parsingKey := true,
                    consumed := st.consumed + 1 }
      else if st.parsingKey then
        .error "singleton param when parsing params which disallow singletons"
      else
        ppLoop sep endc quoteValues permitSingletons rest
          { st with params := st.params.add st.key (some (String.mk st.buffer)),
                    buffer := [], parsingKey := true,
                    consumed := st.consumed + 1 }
    else if c = '"' then
      if !quoteValues then
        ppLoop sep endc quoteValues permitSingletons rest
          { st with buffer := st.buffer ++ ['"'], consumed := st.consumed + 1 }
      else if st.parsingKey then
        .error "unexpected quote in parameter key"
      else if !st.inQuotes && st.buffer ≠ [] then
        .error "unexpected quote midway through a value"
      else if st.inQuotes && rest ≠ [] && rest.headD sep ≠ sep then
        .error "unexpected character after quoted param"
      else
        ppLoop sep endc quoteValues permitSingletons rest
          { st with inQuotes := !st.inQuotes, consumed := st.consumed + 1 }
    else if c = '=' then
      if st.buffer = [] then
        .error "key of length 0 in params"
      else if !st.parsingKey then
        .error "unexpected equals char in value token"
      else
        ppLoop sep endc quoteValues permitSingletons rest
          { st with key := String.mk st.buffer, buffer := [],
                    parsingKey := false, consumed := st.consumed + 1 }
    else
      if !st.inQuotes && (c = ' ' || c = '\t') then
        ppLoop sep endc quoteValues permitSingletons rest
          { st with consumed := st.consumed + 1 }
      else
        ppLoop sep endc quoteValues permitSingletons rest
          { st with buffer := st.buffer ++ [c], consumed := st.consumed + 1 }

/-- The fresh loop state after the optional start delimiter has consumed
`n` bytes. -/
def ppInit (n : Nat) : PPState :=
  { buffer := [], key := "", parsingKey := true, inQuotes := false,
    params := newParams, consumed := n }

/-- parseParams from the source: an empty source yields the defaults; a
nonzero start delimiter must match the first byte and counts as consumed;
then the character loop runs over the remainder. A zero byte for start or
end means no such delimiter. -/
def parseParams (source : List Char) (start sep endc : Char)
    (quoteValues permitSingletons : Bool) : Except String (Params × Nat) :=
  if source.isEmpty then .ok (newParams, 0)
  else if start ≠ Char.ofNat 0 then
    if source.headD start ≠ start then
      .error "expected start character at start of key-value section"
    else
      ppLoop sep endc quoteValues permitSingletons source.tail (ppInit 1)
  else
    ppLoop sep endc quoteValues permitSingletons source (ppInit 0)

/-- C8 counterexample: the claim says the params parser errors on every
empty key, including one terminated by the separator or the end of input,
and never silently returns a map containing an empty key. With singletons
permitted (the configuration used for URI, Via and address parameters),
the source ";" - a start delimiter followed by nothing - is accepted and
yields a map holding the empty key as a valueless entry. -/
theorem c8_empty_key_counterexample :
    parseParams [';'] ';' ';' '?' true true = .ok (⟨[("", none)]⟩, 1) ∧
    parseParams [';', ';'] ';' ';' '?' true true =
      .ok (⟨[("", none), ("", none)]⟩, 2) := by
  exact ⟨rfl, rfl⟩

/-- C8 amended: the params parser errors whenever a double quote is read
in key position (with quoting enabled), whenever an equals sign is read
with an empty key buffer, whenever the input ends inside quotes, whenever
a closing quote is not immediately followed by the separator or the end of
input, and whenever a pending key ends at the separator or at end of input
while singletons are disallowed; but an empty key terminated by the
separator or the end of input while singletons are ALLOWED is not an
error: it is silently added to the map as a valueless entry. -/
theorem c8_params_errors_amended :
    (∀ (sep endc : Char) (ps : Bool) (st : PPState) (rest : List Char),
      sep ≠ '"' → endc ≠ '"' → st.parsingKey = true →
        ppLoop sep endc true ps ('"' :: rest) st =
          .error "unexpected quote in parameter key") ∧
    (∀ (sep endc : Char) (qv ps : Bool) (st : PPState) (rest : List Char),
      sep ≠ '=' → endc ≠ '=' → st.buffer = [] →
        ppLoop sep endc qv ps ('=' :: rest) st =
          .error "key of length 0 in params") ∧
    (∀ (sep endc : Char) (qv ps : Bool) (st : PPState),
      st.inQuotes = true →
        ppLoop sep endc qv ps [] st =
          .error "unclosed quotes in parameter string") ∧
    (∀ (sep endc : Char) (ps : Bool) (st : PPState) (c : Char)
        (rest : List Char),
      sep ≠ '"' → endc ≠ '"' → st.inQuotes = true → c ≠ sep →
        ∃ e, ppLoop sep endc true ps ('"' :: c :: rest) st = .error e) ∧
    (∀ (sep endc : Char) (qv : Bool) (st : PPState),
      st.parsingKey = true →
        ∃ e, ppLoop sep endc qv false [] st = .error e) ∧
    (∀ (sep endc : Char) (qv : Bool) (st : PPState) (rest : List Char),
      st.parsingKey = true → st.inQuotes = false →
        ∃ e, ppLoop sep endc qv false (sep :: rest) st = .error e) ∧
    (∀ (sep endc : Char) (qv : Bool) (st : PPState),
      st.parsingKey = true → st.inQuotes = false →
        ppLoop sep endc qv true [] st =
          .ok (st.params.add (String.mk st.buffer) none, st.consumed)) := by
  refine ⟨?_, ?_, ?_, ?_, ?_, ?_, ?_⟩
  · intro sep endc ps st rest hs he hk
    simp [ppLoop, (Ne.symm hs), (Ne.symm he), hk]
  · intro sep endc qv ps st rest hs he hb
    simp [ppLoop, (Ne.symm hs), (Ne.symm he), hb]
  · intro sep endc qv ps st hq
    simp [ppLoop, ppFinish, hq]
  · intro sep endc ps st c rest hs he hq hc
    by_cases hk : st.parsingKey
    · exact ⟨"unexpected quote in parameter key",
        by simp [ppLoop, (Ne.symm hs), (Ne.symm he), hk]⟩
    · refine ⟨"unexpected character after quoted param", ?_⟩
      simp only [ppLoop, if_neg (Ne.symm he), if_neg (Ne.symm hs)]
      simp [hk, hq, hc]
  · intro sep endc qv st hk
    by_cases hq : st.inQuotes
    · exact ⟨"unclosed quotes in parameter string",
        by simp [ppLoop, ppFinish, hq]⟩
    · exact ⟨"singleton param when parsing params which disallow singletons",
        by simp [ppLoop, ppFinish, hq, hk]⟩
  · intro sep endc qv st rest hk hq
    by_cases hse : sep = endc
    · subst hse
      exact ⟨"singleton param when parsing params which disallow singletons",
        by simp [ppLoop, ppFinish, hq, hk]⟩
    · exact ⟨"singleton param when parsing params which disallow singletons",
        by simp [ppLoop, hse, (Ne.symm hse), hq, hk]⟩
  · intro sep endc qv st hk hq
    simp [ppLoop, ppFinish, hq, hk]

theorem c8_witness :
    ppLoop ';' '?' true true ['"'] (ppInit 0) =
      .error "unexpected quote in parameter key" ∧
    ppLoop ';' '?' true true ['='] (ppInit 0) =
      .error "key of length 0 in params" ∧
    ppLoop ';' '?' true true []
        { ppInit 0 with inQuotes := true } =
      .error "unclosed quotes in parameter string" ∧
    (∃ e, ppLoop ';' '?' true true ['"', 'x']
        { ppInit 0 with inQuotes := true, parsingKey := false } = .error e) ∧
    (∃ e, ppLoop ';' '?' true false [] (ppInit 0) = .error e) ∧
    (∃ e, ppLoop ';' '?' true false [';'] (ppInit 0) = .error e) ∧
    ppLoop ';' '?' true true [] (ppInit 1) = .ok (newParams.add "" none, 1) := by
  refine ⟨?_, ?_, ?_, ?_, ?_, ?_, ?_⟩
  · exact c8_params_errors_amended.1 ';' '?' true (ppInit 0) []
      (by decide) (by decide) rfl
  · exact c8_params_errors_amended.2.1 ';' '?' true true (ppInit 0) []
      (by decide) (by decide) rfl
  · exact c8_params_errors_amended.2.2.1 ';' '?' true true
      { ppInit 0 with inQuotes := true } rfl
  · exact c8_params_errors_amended.2.2.2.1 ';' '?' true
      { ppInit 0 with inQuotes := true, parsingKey := false } 'x' []
      (by decide) (by decide) rfl (by decide)
  · exact c8_params_errors_amended.2.2.2.2.1 ';' '?' true (ppInit 0) rfl
  · exact c8_params_errors_amended.2.2.2.2.2.1 ';' '?' true (ppInit 0) []
      rfl rfl
  · exact c8_params_errors_amended.2.2.2.2.2.2 ';' '?' true (ppInit 1) rfl rfl

/-- connectionHandler state observable through the pool: the connection
(an abstract identifier) and the expiry instant (time.Time as an integer
instant; the reset timer is not otherwise observable). -/
structure Handler where
  conn : Nat
  expiryTime : Int
deriving DecidableEq

/-- NewConnectionHandler: the expiry instant is timing.Now().Add(ttl). -/
def newHandler (conn : Nat) (now ttl : Int) : Handler :=
  { conn := conn, expiryTime := now + ttl }

/-- connectionHandler.Update from the source: expiryTime is set to
timing.Now().Add(ttl) unconditionally, and the timer is reset. -/
def handlerUpdate (h : Handler) (now ttl : Int) : Handler :=
  { h with expiryTime := now + ttl }

/-- connectionPool state: the parent context's error (nil while the parent
cancellation has not fired) and the keyed handler map, modelled as an
association list with the map's replace-on-existing-key semantics. -/
structure Pool where
  ctxErr : Option String
  store : List (Nat × Handler)
deriving DecidableEq

/-- Lookup in the keyed handler map (Go map read). -/
def storeGet : List (Nat × Handler) → Nat → Option Handler
  | [], _ => none
  | kv :: rest, k => if kv.1 = k then some kv.2 else storeGet rest k

/-- Update of the keyed handler map (Go map write): replace the binding of
an existing key, insert otherwise. -/
def storeSet : List (Nat × Handler) → Nat → Handler → List (Nat × Handler)
  | [], k, h => [(k, h)]
  | kv :: rest, k, h =>
    if kv.1 = k then (k, h) :: rest else kv :: storeSet rest k h

/-- connectionPool.Add from the source: fails with the context error when
the parent cancellation has fired; otherwise, an unknown key spawns a new
handler with the given connection and ttl, while a known key only calls
Update(ttl) on the EXISTING handler - the stored connection is not
replaced. -/
def poolAdd (p : Pool) (k conn : Nat) (ttl now : Int) : Except String Pool :=
  match p.ctxErr with
  | some e => .error e
  | none =>
    match storeGet p.store k with
    | none =>
      .ok { p with store := storeSet p.store k (newHandler conn now ttl) }
    | some h =>
      .ok { p with store := storeSet p.store k (handlerUpdate h now ttl) }

/-- connectionPool.Get from the source: the handler's connection and true
when the key is present, nil and false otherwise. -/
def poolGet (p : Pool) (k : Nat) : Option Nat × Bool :=
  match storeGet p.store k with
  | some h => (some h.conn, true)
  | none => (none, false)

theorem storeGet_storeSet (store : List (Nat × Handler)) (k : Nat)
    (h : Handler) : storeGet (storeSet store k h) k = some h := by
  induction store with
  | nil => simp [storeSet, storeGet]
  | cons kv rest ih =>
    by_cases hk : kv.1 = k
    · simp [storeSet, storeGet, hk]
    · simp [storeSet, storeGet, hk, ih]

/-- C4 counterexample: the claim says that after a successful
Add(k, c, ttl), Get(k) returns (c, true) INCLUDING when k was already
bound to a different connection. In the source the known-key branch only
updates the existing handler's ttl; the pool keeps the old connection, so
Get returns the previously stored connection, not the newly added one. -/
theorem c4_add_known_key_counterexample :
    poolAdd ⟨none, [(0, ⟨1, 100⟩)]⟩ 0 2 50 10 =
      .ok ⟨none, [(0, ⟨1, 60⟩)]⟩ ∧
    poolGet ⟨none, [(0, ⟨1, 60⟩)]⟩ 0 = (some 1, true) ∧
    poolGet ⟨none, [(0, ⟨1, 60⟩)]⟩ 0 ≠ (some 2, true) := by
  refine ⟨rfl, rfl, by decide⟩

/-- C4 amended: Add fails exactly when the pool's parent cancellation has
fired; after a successful Add(k, c, ttl), Get(k) returns (c, true) when k
was previously absent, while for a known key the existing handler is kept
with its connection unchanged and only its expiry updated to now + ttl, so
Get(k) returns the OLD connection. -/
theorem c4_add_get_amended (p : Pool) (k c : Nat) (ttl now : Int) :
    (∀ e, p.ctxErr = some e → poolAdd p k c ttl now = .error e) ∧
    (p.ctxErr = none → storeGet p.store k = none →
      ∃ q, poolAdd p k c ttl now = .ok q ∧ poolGet q k = (some c, true)) ∧
    (p.ctxErr = none → ∀ h, storeGet p.store k = some h →
      ∃ q, poolAdd p k c ttl now = .ok q ∧
        poolGet q k = (some h.conn, true) ∧
        storeGet q.store k = some (handlerUpdate h now ttl)) := by
  refine ⟨?_, ?_, ?_⟩
  · intro e he
    simp [poolAdd, he]
  · intro hc habs
    refine ⟨{ p with store := storeSet p.store k (newHandler c now ttl) },
      ?_, ?_⟩
    · simp [poolAdd, hc, habs]
    · simp [poolGet, storeGet_storeSet, newHandler]
  · intro hc h hknown
    refine ⟨{ p with store := storeSet p.store k (handlerUpdate h now ttl) },
      ?_, ?_, ?_⟩
    · simp [poolAdd, hc, hknown]
    · simp [poolGet, storeGet_storeSet, handlerUpdate]
    · simp [storeGet_storeSet]

theorem c4_witness :
    (∃ q, poolAdd ⟨none, []⟩ 5 7 50 10 = .ok q ∧
      poolGet q 5 = (some 7, true)) ∧
    (∃ q, poolAdd ⟨none, [(0, ⟨1, 100⟩)]⟩ 0 2 50 10 = .ok q ∧
      poolGet q 0 = (some 1, true) ∧
      storeGet q.store 0 = some (handlerUpdate ⟨1, 100⟩ 10 50)) ∧
    poolAdd ⟨some "context canceled", []⟩ 0 1 50 10 =
      .error "context canceled" := by
  refine ⟨?_, ?_, ?_⟩
  · exact (c4_add_get_amended ⟨none, []⟩ 5 7 50 10).2.1 rfl rfl
  · exact (c4_add_get_amended ⟨none, [(0, ⟨1, 100⟩)]⟩ 0 2 50 10).2.2 rfl
      ⟨1, 100⟩ rfl
  · exact (c4_add_get_amended ⟨some "context canceled", []⟩ 0 1 50 10).1
      "context canceled" rfl

/-- C9 counterexample: the claim says Update(ttl) never moves the expiry
instant backward. The source sets expiryTime to Now() + ttl
unconditionally, so an Update with a small ttl moves a later expiry
backward: a handler expiring at instant 60 updated at instant 0 with
ttl 1 expires at instant 1 < 60. -/
theorem c9_update_moves_expiry_backward :
    (handlerUpdate ⟨1, 60⟩ 0 1).expiryTime = 1 ∧
    ¬((60 : Int) ≤ (handlerUpdate ⟨1, 60⟩ 0 1).expiryTime) := by
  refine ⟨rfl, by decide⟩

/-- C9 amended: Update(ttl) sets the expiry instant to now + ttl
unconditionally; the observed expiry is monotone only when each update's
now + ttl is at least the current expiry (as happens when the ttl is
fixed and time moves forward); in general a smaller ttl moves the expiry
backward. -/
theorem c9_update_expiry_amended (h : Handler) (now ttl : Int) :
    (handlerUpdate h now ttl).expiryTime = now + ttl ∧
    (h.expiryTime ≤ now + ttl →
      h.expiryTime ≤ (handlerUpdate h now ttl).expiryTime) := by
  exact ⟨rfl, fun hle => hle⟩

theorem c9_witness :
    (handlerUpdate ⟨1, 60⟩ 100 50).expiryTime = 150 ∧
    (60 : Int) ≤ (handlerUpdate ⟨1, 60⟩ 100 50).expiryTime := by
  have h := c9_update_expiry_amended ⟨1, 60⟩ 100 50
  exact ⟨h.1, h.2 (by decide)⟩

/-- Client transaction FSM states (client_state_* constants). -/
inductive CState where
  | calling
  | proceeding
  | completed
  | terminated
deriving DecidableEq

/-- Client transaction FSM inputs (client_input_* constants). -/
inductive CInput where
  | in1xx
  | in2xx
  | in300plus
  | timerA
  | timerB
  | timerD
  | transportErr
  | del
deriving DecidableEq

/-- Client transaction FSM actions (the tx.act_* methods and
fsm.NO_ACTION). -/
inductive CAction where
  | passup
  | passupDelete
  | inviteFinal
  | nonInviteFinal
  | inviteResend
  | nonInviteResend
  | sendAck
  | transErr
  | timeoutAct
  | deleteAct
  | noAction
deriving DecidableEq

/-- The INVITE client transaction table (initInviteFSM): each cell is the
(next state, action) outcome; inputs absent from a state's outcome map are
none (the fsm library reports an impossible input and performs no
transition). -/
def inviteFSM : CState → CInput → Option (CState × CAction)
  | .calling, .in1xx => some (.proceeding, .passup)
  | .calling, .in2xx => some (.terminated, .passupDelete)
  | .calling, .in300plus => some (.completed, .inviteFinal)
  | .calling, .timerA => some (.calling, .inviteResend)
  | .calling, .timerB => some (.terminated, .timeoutAct)
  | .calling, .transportErr => some (.terminated, .transErr)
  | .proceeding, .in1xx => some (.proceeding, .passup)
  | .proceeding, .in2xx => some (.terminated, .passupDelete)
  | .proceeding, .in300plus => some (.completed, .inviteFinal)
  | .proceeding, .timerA => some (.proceeding, .noAction)
  | .proceeding, .timerB => some (.proceeding, .noAction)
  | .completed, .in1xx => some (.completed, .noAction)
  | .completed, .in2xx => some (.completed, .noAction)
  | .completed, .in300plus => some (.completed, .sendAck)
  | .completed, .transportErr => some (.terminated, .transErr)
  | .completed, .timerA => some (.completed, .noAction)
  | .completed, .timerB => some (.completed, .noAction)
  | .completed, .timerD => some (.terminated, .deleteAct)
  | .terminated, .in1xx => some (.terminated, .noAction)
  | .terminated, .in2xx => some (.terminated, .noAction)
  | .terminated, .in300plus => some (.terminated, .noAction)
  | .terminated, .timerA => some (.terminated, .noAction)
  | .terminated, .timerB => some (.terminated, .noAction)
  | .terminated, .timerD => some (.terminated, .noAction)
  | .terminated, .del => some (.terminated, .deleteAct)
  | _, _ => none

/-- The non-INVITE client transaction table (initNonInviteFSM). -/
def nonInviteFSM : CState → CInput → Option (CState × CAction)
  | .calling, .in1xx => some (.proceeding, .passup)
  | .calling, .in2xx => some (.completed, .nonInviteFinal)
  | .calling, .in300plus => some (.completed, .nonInviteFinal)
  | .calling, .timerA => some (.calling, .nonInviteResend)
  | .calling, .timerB => some (.terminated, .timeoutAct)
  | .calling, .transportErr => some (.terminated, .transErr)
  | .proceeding, .in1xx => some (.proceeding, .passup)
  | .proceeding, .in2xx => some (.completed, .nonInviteFinal)
  | .proceeding, .in300plus => some (.completed, .nonInviteFinal)
  | .proceeding, .timerA => some (.proceeding, .nonInviteResend)
  | .proceeding, .timerB => some (.terminated, .timeoutAct)
  | .proceeding, .transportErr => some (.terminated, .transErr)
  | .completed, .in1xx => some (.completed, .noAction)
  | .completed, .in2xx => some (.completed, .noAction)
  | .completed, .in300plus => some (.completed, .noAction)
  | .completed, .timerD => some (.terminated, .deleteAct)
  | .completed, .timerA => some (.completed, .noAction)
  | .completed, .timerB => some (.completed, .noAction)
  | .terminated, .in1xx => some (.terminated, .noAction)
  | .terminated, .in2xx => some (.terminated, .noAction)
  | .terminated, .in300plus => some (.terminated, .noAction)
  | .terminated, .timerA => some (.terminated, .noAction)
  | .terminated, .timerB => some (.terminated, .noAction)
  | .terminated, .timerD => some (.terminated, .noAction)
  | .terminated, .del => some (.terminated, .deleteAct)
  | _, _ => none

/-- Consumer-visible terminal signals: a final response passed up, a
timeout error, or a transport error. -/
inductive TermSignal where
  | finalResp
  | timeoutSig
  | transportSig
deriving DecidableEq

/-- Modelled from the spec: the terminal signal each action surfaces to the
consumer (commonTx.timeoutError and transportError are not under src/; the
spec states that timeout and trans_err surface the outcome, and that
passup_delete, invite_final and non_invite_final pass the final response
up). act_passup passes a provisional response - not a terminal signal. -/
def actionSignals : CAction → List TermSignal
  | .passupDelete => [.finalResp]
  | .inviteFinal => [.finalResp]
  | .nonInviteFinal => [.finalResp]
  | .timeoutAct => [.timeoutSig]
  | .transErr => [.transportSig]
  | _ => []

/-- The follow-up input each action returns to fsm.Spin:
client_input_delete from act_passup_delete, act_trans_err and act_timeout;
fsm.NO_INPUT from the rest (the return statements of the act_* methods). -/
def actionFollowup : CAction → Option CInput
  | .passupDelete => some .del
  | .transErr => some .del
  | .timeoutAct => some .del
  | _ => none

/-- fsm.Spin: apply the outcome for the input, then keep processing the
inputs returned by the actions until NO_INPUT. An input absent from the
state's outcome table leaves the state unchanged with no action. Fuel
bounds the chain; every chain of these tables ends within two steps. -/
def spinFuel (fsm : CState → CInput → Option (CState × CAction)) :
    Nat → CState → CInput → CState × List TermSignal
  | 0, s, _ => (s, [])
  | fuel + 1, s, i =>
    match fsm s i with
    | none => (s, [])
    | some (s2, a) =>
      match actionFollowup a with
      | none => (s2, actionSignals a)
      | some i2 =>
        let r := spinFuel fsm fuel s2 i2
        (r.1, actionSignals a ++ r.2)

def spin (fsm : CState → CInput → Option (CState × CAction))
    (s : CState) (i : CInput) : CState × List TermSignal :=
  spinFuel fsm 8 s i

/-- The terminal signals surfaced while feeding a sequence of inputs from
a given state. -/
def runSigs (fsm : CState → CInput → Option (CState × CAction)) :
    CState → List CInput → List TermSignal
  | _, [] => []
  | s, i :: is => (spin fsm s i).2 ++ runSigs fsm (spin fsm s i).1 is

def countFT (sigs : List TermSignal) : Nat :=
  (sigs.filter (fun t => t = .finalResp || t = .timeoutSig)).length

def countTE (sigs : List TermSignal) : Nat :=
  (sigs.filter (fun t => t = .transportSig)).length

/-- Signal budget of a non-INVITE state: calling and proceeding may still
surface one terminal signal; completed and terminated surface none. -/
def niBound : CState → Nat
  | .calling => 1
  | .proceeding => 1
  | _ => 0

/-- Final/timeout budget of an INVITE state. -/
def ftBound : CState → Nat
  | .calling => 1
  | .proceeding => 1
  | _ => 0

/-- Transport-error budget of an INVITE state: only terminated can no
longer surface one. -/
def teBound : CState → Nat
  | .terminated => 0
  | _ => 1

theorem nonInvite_spin_budget (s : CState) (i : CInput) :
    (spin nonInviteFSM s i).2.length + niBound (spin nonInviteFSM s i).1 ≤
      niBound s := by
  cases s <;> cases i <;> decide

theorem invite_spin_ft_budget (s : CState) (i : CInput) :
    countFT (spin inviteFSM s i).2 + ftBound (spin inviteFSM s i).1 ≤
      ftBound s := by
  cases s <;> cases i <;> decide

theorem invite_spin_te_budget (s : CState) (i : CInput) :
    countTE (spin inviteFSM s i).2 + teBound (spin inviteFSM s i).1 ≤
      teBound s := by
  cases s <;> cases i <;> decide

theorem countFT_append (a b : List TermSignal) :
    countFT (a ++ b) = countFT a + countFT b := by
  simp [countFT, List.filter_append]

theorem countTE_append (a b : List TermSignal) :
    countTE (a ++ b) = countTE a + countTE b := by
  simp [countTE, List.filter_append]

theorem nonInvite_run_budget (is : List CInput) (s : CState) :
    (runSigs nonInviteFSM s is).length ≤ niBound s := by
  induction is generalizing s with
  | nil => simp [runSigs]
  | cons i is ih =>
    have h1 := nonInvite_spin_budget s i
    have h2 := ih (spin nonInviteFSM s i).1
    simp only [runSigs, List.length_append]
    omega

theorem invite_run_ft_budget (is : List CInput) (s : CState) :
    countFT (runSigs inviteFSM s is) ≤ ftBound s := by
  induction is generalizing s with
  | nil => simp [runSigs, countFT]
  | cons i is ih =>
    have h1 := invite_spin_ft_budget s i
    have h2 := ih (spin inviteFSM s i).1
    simp only [runSigs, countFT_append]
    omega

theorem invite_run_te_budget (is : List CInput) (s : CState) :
    countTE (runSigs inviteFSM s is) ≤ teBound s := by
  induction is generalizing s with
  | nil => simp [runSigs, countTE]
  | cons i is ih =>
    have h1 := invite_spin_te_budget s i
    have h2 := ih (spin inviteFSM s i).1
    simp only [runSigs, countTE_append]
    omega

/-- C2 counterexample: the claim says at most one terminal signal of
{final response, timeout, transport error} reaches the consumer. In the
INVITE FSM, a 3xx+ final in calling surfaces the final response and moves
to completed; completed maps transport_err (e.g. an ACK send failure) to
act_trans_err, which surfaces a SECOND terminal signal. -/
theorem c2_two_terminal_signals_counterexample :
    runSigs inviteFSM .calling [.in300plus, .transportErr] =
      [.finalResp, .transportSig] ∧
    ¬((runSigs inviteFSM .calling [.in300plus, .transportErr]).length ≤ 1) := by
  refine ⟨rfl, by decide⟩

/-- C2 amended: for the non-INVITE FSM at most one terminal signal is ever
surfaced from calling; for the INVITE FSM at most one final-response or
timeout signal and at most one transport-error signal are surfaced from
calling - the only way to see two terminal signals is a transport error
surfaced from completed after a 3xx+ final (ACK send failure). Response
inputs delivered in terminated cause no transition, no action and no
signal in both FSMs. -/
theorem c2_terminal_signal_amended :
    (∀ is : List CInput, (runSigs nonInviteFSM .calling is).length ≤ 1) ∧
    (∀ is : List CInput, countFT (runSigs inviteFSM .calling is) ≤ 1) ∧
    (∀ is : List CInput, countTE (runSigs inviteFSM .calling is) ≤ 1) ∧
    spin inviteFSM .terminated .in1xx = (.terminated, []) ∧
    spin inviteFSM .terminated .in2xx = (.terminated, []) ∧
    spin inviteFSM .terminated .in300plus = (.terminated, []) ∧
    spin nonInviteFSM .terminated .in1xx = (.terminated, []) ∧
    spin nonInviteFSM .terminated .in2xx = (.terminated, []) ∧
    spin nonInviteFSM .terminated .in300plus = (.terminated, []) := by
  refine ⟨fun is => nonInvite_run_budget is .calling,
    fun is => invite_run_ft_budget is .calling,
    fun is => invite_run_te_budget is .calling,
    rfl, rfl, rfl, rfl, rfl, rfl⟩

/-- Modelled from the spec: RFC 3261 timer base values in nanoseconds
(Go time.Duration); T1 = 500 ms and T2 = 4 s. The transaction package file
defining the constants is not under src/. -/
def T1 : Int := 500000000

/-- Modelled from the spec: T2 = 4 s in nanoseconds. -/
def T2 : Int := 4000000000

/-- Two's-complement wrap of Go int64 arithmetic (the literals are 2^63
and 2^64). -/
def i64wrap (x : Int) : Int :=
  (x + 9223372036854775808) % 18446744073709551616 - 9223372036854775808

/-- act_invite_resend timer update: timer_a_time *= 2 (Go int64), no cap. -/
def inviteNextPeriod (t : Int) : Int := i64wrap (2 * t)

/-- act_non_invite_resend timer update: timer_a_time *= 2, then capped at
T2. -/
def nonInviteNextPeriod (t : Int) : Int :=
  if i64wrap (2 * t) > T2 then T2 else i64wrap (2 * t)

/-- The timer A period after n firings, starting from the given period. -/
def iterPeriod (f : Int → Int) : Nat → Int → Int
  | 0, t => t
  | n + 1, t => iterPeriod f n (f t)

theorem i64wrap_eq (x : Int) (h1 : -9223372036854775808 ≤ x)
    (h2 : x < 9223372036854775808) : i64wrap x = x := by
  unfold i64wrap
  have hmod : (x + 9223372036854775808) % 18446744073709551616 =
      x + 9223372036854775808 :=
    Int.emod_eq_of_lt (by omega) (by omega)
  omega

theorem nonInviteNextPeriod_min (t : Int) (h1 : 0 < t) (h2 : t ≤ T2) :
    nonInviteNextPeriod t = min (2 * t) T2 := by
  have hw : i64wrap (2 * t) = 2 * t := by
    apply i64wrap_eq <;> unfold T2 at h2 <;> omega
  unfold nonInviteNextPeriod
  rw [hw]
  split_ifs with hgt
  · exact (min_eq_right (by omega)).symm
  · exact (min_eq_left (by omega)).symm

theorem nonInvite_period_closed (n : Nat) (t : Int) (h1 : 0 < t)
    (h2 : t ≤ T2) :
    iterPeriod nonInviteNextPeriod n t = min (2 ^ n * t) T2 := by
  induction n generalizing t with
  | zero =>
    rw [show iterPeriod nonInviteNextPeriod 0 t = t from rfl, pow_zero,
      one_mul]
    exact (min_eq_left h2).symm
  | succ n ih =>
    have hpow : (1 : Int) ≤ 2 ^ n := one_le_pow₀ (by norm_num)
    have hexp : 2 ^ n * (2 * t) = 2 ^ (n + 1) * t := by ring
    rw [show iterPeriod nonInviteNextPeriod (n + 1) t =
        iterPeriod nonInviteNextPeriod n (nonInviteNextPeriod t) from rfl,
      nonInviteNextPeriod_min t h1 h2]
    by_cases hc : 2 * t ≤ T2
    · rw [min_eq_left hc, ih (2 * t) (by omega) hc, hexp]
    · have hT2 : min (2 * t) T2 = T2 := min_eq_right (by omega)
      rw [hT2, ih T2 (by unfold T2; omega) le_rfl]
      have hl : T2 ≤ 2 ^ n * T2 :=
        le_mul_of_one_le_left (by unfold T2; omega) hpow
      have hr : T2 ≤ 2 ^ (n + 1) * t := by
        have h2t : T2 ≤ 2 * t := by omega
        have hmid : 2 * t ≤ 2 ^ n * (2 * t) :=
          le_mul_of_one_le_left (by omega) hpow
        omega
      rw [min_eq_right hl, min_eq_right hr]

theorem invite_period_closed (n : Nat) (t : Int) (h0 : 0 ≤ t)
    (h : 2 ^ n * t < 9223372036854775808) :
    iterPeriod inviteNextPeriod n t = 2 ^ n * t := by
  induction n generalizing t with
  | zero => simp [iterPeriod]
  | succ n ih =>
    have hpow : (1 : Int) ≤ 2 ^ n := one_le_pow₀ (by norm_num)
    have hexp : 2 ^ n * (2 * t) = 2 ^ (n + 1) * t := by ring
    have h2t : 2 * t ≤ 2 ^ n * (2 * t) :=
      le_mul_of_one_le_left (by omega) hpow
    have hlt : 2 * t < 9223372036854775808 := by omega
    have hw : inviteNextPeriod t = 2 * t := by
      unfold inviteNextPeriod
      apply i64wrap_eq <;> omega
    have hih := ih (2 * t) (by omega) (by omega)
    rw [show iterPeriod inviteNextPeriod (n + 1) t =
        iterPeriod inviteNextPeriod n (inviteNextPeriod t) from rfl, hw,
      hih, hexp]

/-- C5: on each timer A firing in the INVITE table the transaction resends
from calling (proceeding maps timer A to no action); on each firing in the
non-INVITE table it resends from both calling and proceeding. The
non-INVITE update doubles the current period and clamps it at T2 (so the
periods after n firings starting from T1 are min(2^n T1, T2)); the INVITE
update doubles without a cap (so, while the doubling stays inside int64,
the period after n firings is 2^n T1). -/
theorem c5_timer_a_doubling (n m : Nat)
    (hm : 2 ^ m * T1 < 9223372036854775808) :
    inviteFSM .calling .timerA = some (.calling, .inviteResend) ∧
    inviteFSM .proceeding .timerA = some (.proceeding, .noAction) ∧
    nonInviteFSM .calling .timerA = some (.calling, .nonInviteResend) ∧
    nonInviteFSM .proceeding .timerA = some (.proceeding, .nonInviteResend) ∧
    (∀ t : Int, 0 < t → t ≤ T2 →
      nonInviteNextPeriod t = min (2 * t) T2) ∧
    iterPeriod nonInviteNextPeriod n T1 = min (2 ^ n * T1) T2 ∧
    iterPeriod inviteNextPeriod m T1 = 2 ^ m * T1 := by
  refine ⟨rfl, rfl, rfl, rfl, ?_, ?_, ?_⟩
  · exact fun t h1 h2 => nonInviteNextPeriod_min t h1 h2
  · exact nonInvite_period_closed n T1 (by unfold T1; omega)
      (by unfold T1 T2; omega)
  · exact invite_period_closed m T1 (by unfold T1; omega) hm

theorem c5_witness :
    iterPeriod nonInviteNextPeriod 3 T1 = 4000000000 ∧
    iterPeriod nonInviteNextPeriod 4 T1 = 4000000000 ∧
    iterPeriod inviteNextPeriod 4 T1 = 8000000000 := by
  have h3 := c5_timer_a_doubling 3 4 (by unfold T1; norm_num)
  have h4 := c5_timer_a_doubling 4 4 (by unfold T1; norm_num)
  refine ⟨?_, ?_, ?_⟩
  · rw [h3.2.2.2.2.2.1]
    decide
  · rw [h4.2.2.2.2.2.1]
    decide
  · rw [h4.2.2.2.2.2.2]
    decide

/-- Modelled from the spec: the header variants of core (whose source is
not under src/) that clientTx.ack manipulates, with their canonical
names; the CSeq carries a sequence number and a method, the Via its raw
hop data. -/
inductive SHeader where
  | hFrom (v : String)
  | hCallId (v : String)
  | hRoute (v : String)
  | hTo (v : String)
  | hCSeq (seqNo : Nat) (method : String)
  | hVia (v : String)
  | hGeneric (name v : String)
deriving DecidableEq

/-- Canonical header name (core.Header.Name). -/
def headerName : SHeader → String
  | .hFrom _ => "From"
  | .hCallId _ => "Call-ID"
  | .hRoute _ => "Route"
  | .hTo _ => "To"
  | .hCSeq _ _ => "CSeq"
  | .hVia _ => "Via"
  | .hGeneric n _ => n

/-- Modelled from the spec: core.Header.Clone is a deep copy, which for
pure values is the value itself. -/
def cloneHeader (h : SHeader) : SHeader := h

/-- Modelled from the spec: core.CopyHeaders(name, src, dst) appends to dst
a clone of every header of src carrying the given canonical name, in
order. The returned list is what gets appended. -/
def copyHeaders (name : String) (headers : List SHeader) : List SHeader :=
  (headers.filter (fun h => headerName h = name)).map cloneHeader

/-- A core.Request as consumed by clientTx.ack: method, recipient URI,
SIP version, ordered headers and body. -/
structure SRequest where
  method : String
  recipient : String
  sipVersion : String
  headers : List SHeader
  body : String
deriving DecidableEq

/-- Request.CSeq(): the first CSeq header, when present. -/
def firstCSeq (headers : List SHeader) : Option (Nat × String) :=
  headers.findSome? (fun h =>
    match h with
    | .hCSeq n m => some (n, m)
    | _ => none)

/-- Request.Via(): the first Via header, when present. -/
def firstVia (headers : List SHeader) : Option String :=
  headers.findSome? (fun h =>
    match h with
    | .hVia v => some v
    | _ => none)

/-- The observable effect of clientTx.ack: the ACK request handed to the
transport (none when the original request lacks a CSeq or Via and the
method logs and returns early), the lastErr field and the input injected
into the FSM. -/
structure AckOutcome where
  sentReq : Option SRequest
  lastErr : Option String
  injected : Option CInput
deriving DecidableEq

/-- clientTx.ack from the source: build a new request with method ACK, the
original request's recipient and SIP version and an empty body; append
copies of the From, Call-ID and Route headers of the original request; a
clone of the original CSeq with its method set to ACK; a clone of the
original first Via; then a copy of the To header of the response. Send it;
a send failure sets lastErr and spins client_input_transport_err. The send
outcome is abstracted as a function from the request to an optional
error. -/
def ackRequest (origin : SRequest) (respHeaders : List SHeader) (n : Nat)
    (v : String) : SRequest :=
  { method := "ACK", recipient := origin.recipient,
    sipVersion := origin.sipVersion,
    headers := copyHeaders "From" origin.headers ++
      copyHeaders "Call-ID" origin.headers ++
      copyHeaders "Route" origin.headers ++ [SHeader.hCSeq n "ACK"] ++
      [SHeader.hVia v] ++ copyHeaders "To" respHeaders,
    body := "" }

/-- The final step of clientTx.ack: hand the ACK to the transport; a
failure sets lastErr and injects client_input_transport_err. -/
def ackSendStep (ack : SRequest) (send : SRequest → Option String) :
    AckOutcome :=
  match send ack with
  | none => { sentReq := some ack, lastErr := none, injected := none }
  | some e =>
    { sentReq := some ack, lastErr := some e,
      injected := some CInput.transportErr }

def clientTxAck (origin : SRequest) (respHeaders : List SHeader)
    (send : SRequest → Option String) : AckOutcome :=
  match firstCSeq origin.headers with
  | none => { sentReq := none, lastErr := none, injected := none }
  | some (n, _) =>
    match firstVia origin.headers with
    | none => { sentReq := none, lastErr := none, injected := none }
    | some v => ackSendStep (ackRequest origin respHeaders n v) send

/-- C6: when an INVITE client transaction handles a 3xx+ final response
(the calling and proceeding cells map it to completed with
act_invite_final, whose action passes the response up and calls ack), the
synthesized ACK has method ACK, the original request's recipient URI and
SIP version, copies of the From, Call-ID and Route headers of the
original, a clone of the original CSeq with its method set to ACK, a clone
of the original first Via, a copy of the To headers of the response, and
an empty body; when sending fails, lastErr records the error and
client_input_transport_err is injected into the FSM; a successful send
sets neither. -/
theorem c6_ack_synthesis (origin : SRequest) (respHeaders : List SHeader)
    (send : SRequest → Option String) (n : Nat) (m v : String)
    (hcseq : firstCSeq origin.headers = some (n, m))
    (hvia : firstVia origin.headers = some v) :
    inviteFSM .calling .in300plus = some (.completed, .inviteFinal) ∧
    inviteFSM .proceeding .in300plus = some (.completed, .inviteFinal) ∧
    ∃ a, (clientTxAck origin respHeaders send).sentReq = some a ∧
      a.method = "ACK" ∧
      a.recipient = origin.recipient ∧
      a.sipVersion = origin.sipVersion ∧
      a.headers = copyHeaders "From" origin.headers ++
        copyHeaders "Call-ID" origin.headers ++
        copyHeaders "Route" origin.headers ++
        [SHeader.hCSeq n "ACK"] ++ [SHeader.hVia v] ++
        copyHeaders "To" respHeaders ∧
      a.body = "" ∧
      (∀ e, send a = some e →
        (clientTxAck origin respHeaders send).lastErr = some e ∧
        (clientTxAck origin respHeaders send).injected =
          some CInput.transportErr) ∧
      (send a = none →
        (clientTxAck origin respHeaders send).lastErr = none ∧
        (clientTxAck origin respHeaders send).injected = none) := by
  refine ⟨rfl, rfl, ?_⟩
  have hunf : clientTxAck origin respHeaders send =
      ackSendStep (ackRequest origin respHeaders n v) send := by
    unfold clientTxAck
    rw [hcseq, hvia]
  refine ⟨ackRequest origin respHeaders n v, ?_⟩
  rcases hsend : send (ackRequest origin respHeaders n v) with _ | e
  · have hstep : ackSendStep (ackRequest origin respHeaders n v) send =
        { sentReq := some (ackRequest origin respHeaders n v),
          lastErr := none, injected := none } := by
      unfold ackSendStep
      rw [hsend]
    rw [hunf, hstep]
    refine ⟨rfl, rfl, rfl, rfl, rfl, rfl, ?_, fun _ => ⟨rfl, rfl⟩⟩
    intro e2 he2
    cases he2
  · have hstep : ackSendStep (ackRequest origin respHeaders n v) send =
        { sentReq := some (ackRequest origin respHeaders n v),
          lastErr := some e, injected := some CInput.transportErr } := by
      unfold ackSendStep
      rw [hsend]
    rw [hunf, hstep]
    refine ⟨rfl, rfl, rfl, rfl, rfl, rfl, ?_, ?_⟩
    · intro e2 he2
      cases he2
      exact ⟨rfl, rfl⟩
    · intro hnone
      cases hnone

theorem c6_witness :
    ∃ a, (clientTxAck
        { method := "INVITE", recipient := "sip:bob@example.com",
          sipVersion := "SIP/2.0",
          headers := [SHeader.hFrom "alice", SHeader.hCallId "a@b",
            SHeader.hCSeq 1 "INVITE", SHeader.hVia "SIP/2.0/UDP h:5060"],
          body := "" }
        [SHeader.hTo "bob"] (fun _ => none)).sentReq = some a ∧
      a.method = "ACK" ∧
      a.recipient = "sip:bob@example.com" ∧
      a.sipVersion = "SIP/2.0" ∧
      a.headers = copyHeaders "From" [SHeader.hFrom "alice",
          SHeader.hCallId "a@b", SHeader.hCSeq 1 "INVITE",
          SHeader.hVia "SIP/2.0/UDP h:5060"] ++
        copyHeaders "Call-ID" [SHeader.hFrom "alice", SHeader.hCallId "a@b",
          SHeader.hCSeq 1 "INVITE", SHeader.hVia "SIP/2.0/UDP h:5060"] ++
        copyHeaders "Route" [SHeader.hFrom "alice", SHeader.hCallId "a@b",
          SHeader.hCSeq 1 "INVITE", SHeader.hVia "SIP/2.0/UDP h:5060"] ++
        [SHeader.hCSeq 1 "ACK"] ++ [SHeader.hVia "SIP/2.0/UDP h:5060"] ++
        copyHeaders "To" [SHeader.hTo "bob"] ∧
      a.body = "" ∧
      (∀ e, (fun (_ : SRequest) => (none : Option String)) a = some e →
        (clientTxAck
          { method := "INVITE", recipient := "sip:bob@example.com",
            sipVersion := "SIP/2.0",
            headers := [SHeader.hFrom "alice", SHeader.hCallId "a@b",
              SHeader.hCSeq 1 "INVITE", SHeader.hVia "SIP/2.0/UDP h:5060"],
            body := "" }
          [SHeader.hTo "bob"] (fun _ => none)).lastErr = some e ∧
        (clientTxAck
          { method := "INVITE", recipient := "sip:bob@example.com",
            sipVersion := "SIP/2.0",
            headers := [SHeader.hFrom "alice", SHeader.hCallId "a@b",
              SHeader.hCSeq 1 "INVITE", SHeader.hVia "SIP/2.0/UDP h:5060"],
            body := "" }
          [SHeader.hTo "bob"] (fun _ => none)).injected =
          some CInput.transportErr) ∧
      ((fun (_ : SRequest) => (none : Option String)) a = none →
        (clientTxAck
          { method := "INVITE", recipient := "sip:bob@example.com",
            sipVersion := "SIP/2.0",
            headers := [SHeader.hFrom "alice", SHeader.hCallId "a@b",
              SHeader.hCSeq 1 "INVITE", SHeader.hVia "SIP/2.0/UDP h:5060"],
            body := "" }
          [SHeader.hTo "bob"] (fun _ => none)).lastErr = none ∧
        (clientTxAck
          { method := "INVITE", recipient := "sip:bob@example.com",
            sipVersion := "SIP/2.0",
            headers := [SHeader.hFrom "alice", SHeader.hCallId "a@b",
              SHeader.hCSeq 1 "INVITE", SHeader.hVia "SIP/2.0/UDP h:5060"],
            body := "" }
          [SHeader.hTo "bob"] (fun _ => none)).injected = none) := by
  exact (c6_ack_synthesis
    { method := "INVITE", recipient := "sip:bob@example.com",
      sipVersion := "SIP/2.0",
      headers := [SHeader.hFrom "alice", SHeader.hCallId "a@b",
        SHeader.hCSeq 1 "INVITE", SHeader.hVia "SIP/2.0/UDP h:5060"],
      body := "" }
    [SHeader.hTo "bob"] (fun _ => none) 1 "INVITE" "SIP/2.0/UDP h:5060"
    rfl rfl).2.2

/-- Outcome of a Go computation: a returned value, a returned error, or a
runtime panic (index out of range, slice bounds out of range). -/
inductive GoOut (α : Type) where
  | ok : α → GoOut α
  | fail : String → GoOut α
  | crash : GoOut α
deriving DecidableEq

def GoOut.bind {α β : Type} : GoOut α → (α → GoOut β) → GoOut β
  | .ok a, f => f a
  | .fail e, _ => .fail e
  | .crash, _ => .crash

instance : Monad GoOut where
  pure := GoOut.ok
  bind := GoOut.bind

/-- Go string indexing s[i]: panics when out of range. -/
def goIdx (l : List Char) (i : Nat) : GoOut Char :=
  match l[i]? with
  | some c => .ok c
  | none => .crash

/-- Go slice s[:i] with an int bound: panics when i < 0 or i > len(s). -/
def goTake (l : List Char) (i : Int) : GoOut (List Char) :=
  if 0 ≤ i ∧ i ≤ (l.length : Int) then .ok (l.take i.toNat) else .crash

/-- Go slice s[i:] with an int bound: panics when i < 0 or i > len(s). -/
def goDrop (l : List Char) (i : Int) : GoOut (List Char) :=
  if 0 ≤ i ∧ i ≤ (l.length : Int) then .ok (l.drop i.toNat) else .crash

/-- Go strings.TrimSpace over the ASCII whitespace present in SIP text. -/
def isGoSpace (c : Char) : Bool :=
  c = ' ' || c = '\t' || c = '\n' || c = '\r'

def trimSpace (l : List Char) : List Char :=
  ((l.dropWhile isGoSpace).reverse.dropWhile isGoSpace).reverse

/-- The end character bound to a delimiter start in the quotes delimiter
set used by parseAddressValue (findUnescaped with quotesDelim). -/
def quoteEnds (c : Char) : Option Char :=
  if c = '"' then some '"' else none

/-- findAnyUnescaped's scanning loop specialised to one target character
and the quotes delimiter: escaped tracks whether the scan is inside a
delimited run, endEscape the character that closes it (the zero character
when the map lookup misses). -/
def findUnescapedAux (target : Char) :
    List Char → Bool → Char → Nat → Option Nat
  | [], _, _, _ => none
  | c :: rest, escaped, endEsc, idx =>
    if !escaped && c = target then some idx
    else if escaped then
      findUnescapedAux target rest (c ≠ endEsc) endEsc (idx + 1)
    else
      match quoteEnds c with
      | some e => findUnescapedAux target rest true e (idx + 1)
      | none => findUnescapedAux target rest false (Char.ofNat 0) (idx + 1)

/-- findUnescaped(text, target, quotesDelim) from the source: index of the
first unquoted occurrence, or -1. -/
def findUnescaped (text : List Char) (target : Char) : Int :=
  match findUnescapedAux target text false (Char.ofNat 0) 0 with
  | some i => (i : Int)
  | none => -1

/-- core.SipUri: secure flag, optional user and password, host, optional
port, URI parameters and URI headers. -/
structure SipUri where
  isEncrypted : Bool
  user : Option String
  password : Option String
  host : String
  port : Option Nat
  uriParams : Params
  headers : Params
deriving DecidableEq

/-- core.Uri restricted to the variants the address parser produces. -/
inductive Uri where
  | sip : SipUri → Uri
  | wildcard : Uri
deriving DecidableEq

/-- parseHostPort from the source: split at the first colon; the port is
parsed as a 16-bit unsigned integer. -/
def parseHostPort (raw : List Char) : GoOut (String × Option Nat) :=
  match charIndex raw ':' with
  | none => .ok (String.mk raw, none)
  | some i =>
    match goParseUint (raw.drop (i + 1)) 16 with
    | some v => .ok (String.mk (raw.take i), some v)
    | none => .fail "invalid port number"

/-- ParseSipUri from the source, in source order: protocol name check,
secure flag, colon, optional user-info (user [":" password] "@"),
host[:port] up to the first ";" or "?", then URI parameters and URI
headers through parseParams. -/
def ParseSipUri (uriStr0 : List Char) : GoOut SipUri := do
  let p3 ← goTake uriStr0 3
  if String.mk (p3.map Char.toLower) ≠ "sip" then
    GoOut.fail "invalid SIP uri protocol name"
  else
    let s1 := uriStr0.drop 3
    let c0 ← goIdx s1 0
    let isEnc := c0.toLower = 's'
    let s2 := if isEnc then s1.drop 1 else s1
    let c1 ← goIdx s2 0
    if c1 ≠ ':' then GoOut.fail "no colon after protocol name in SIP uri"
    else
      let s3 := s2.drop 1
      let up ←
        match charIndex s3 '@' with
        | none => GoOut.ok ((none : Option String), (none : Option String), s3)
        | some endInfo =>
          let endUser : Option Nat :=
            match charIndex s3 ':' with
            | some j => if j > endInfo then none else some j
            | none => none
          match endUser with
          | none =>
            GoOut.ok (some (String.mk (s3.take endInfo)), none,
              s3.drop (endInfo + 1))
          | some j =>
            GoOut.ok (some (String.mk (s3.take j)),
              some (String.mk ((s3.take endInfo).drop (j + 1))),
              s3.drop (endInfo + 1))
      let s4 := up.2.2
      let endUri :=
        match charIndex s4 ';' with
        | some i => i
        | none =>
          match charIndex s4 '?' with
          | some i => i
          | none => s4.length
      let hp ← parseHostPort (s4.take endUri)
      let s5 := s4.drop endUri
      if s5 = [] then
        GoOut.ok { isEncrypted := isEnc, user := up.1, password := up.2.1,
                   host := hp.1, port := hp.2, uriParams := newParams,
                   headers := newParams }
      else
        let upar ←
          if s5.headD ' ' = ';' then
            match parseParams s5 ';' ';' '?' true true with
            | .ok r => GoOut.ok r
            | .error e => GoOut.fail e
          else GoOut.ok (newParams, 0)
        let s6 := s5.drop upar.2
        let hpar ←
          match parseParams s6 '?' '&' (Char.ofNat 0) true false with
          | .ok r => GoOut.ok r
          | .error e => GoOut.fail e
        let s7 := s6.drop hpar.2
        if s7.length > 0 then GoOut.fail "parse of SIP uri ended early"
        else
          GoOut.ok { isEncrypted := isEnc, user := up.1, password := up.2.1,
                     host := hp.1, port := hp.2, uriParams := upar.1,
                     headers := hpar.1 }

/-- ParseUri from the source: the trimmed "*" is the wildcard; otherwise
the scheme before the first colon dispatches to ParseSipUri for sip and
sips and fails for anything else. -/
def ParseUri (uriStr : List Char) : GoOut Uri :=
  if String.mk (trimSpace uriStr) = "*" then .ok .wildcard
  else
    match charIndex uriStr ':' with
    | none => .fail "no colon in URI"
    | some colonIdx =>
      let scheme := String.mk ((uriStr.take colonIdx).map Char.toLower)
      if scheme = "sip" then (ParseSipUri uriStr).bind (fun u => .ok (.sip u))
      else if scheme = "sips" then
        (ParseSipUri uriStr).bind (fun u => .ok (.sip u))
      else .fail "unsupported URI schema"

/-- parseAddressValue from the source, in source order: empty-body check
BEFORE trimming; optional display name (quoted, or the text before the
first unquoted angle bracket); then the URI, bracketed or bare; then
optional header parameters. The Go expression addressText[0] after the
second TrimSpace panics when the trimmed text is empty (e.g. a
whitespace-only comma-separated section), and addressText[:endOfUri]
panics when an opening angle bracket has no closing one (Index returned
-1). -/
def parseAddressValue (addressText0 : List Char) :
    GoOut (Option String × Uri × Params) := do
  if addressText0.length = 0 then
    GoOut.fail "address-type header has empty body"
  else
    let t1 := trimSpace addressText0
    let fa := findUnescaped t1 '<'
    let dn ←
      if fa > 0 then do
        let c0 ← goIdx t1 0
        if c0 = '"' then
          let t := t1.drop 1
          match charIndex t '"' with
          | none => GoOut.fail "unclosed quotes in header text"
          | some nq =>
            GoOut.ok ((some (String.mk (t.take nq)) : Option String),
              t.drop (nq + 1))
        else
          GoOut.ok ((some (String.mk (trimSpace (t1.take fa.toNat))) :
            Option String), t1.drop fa.toNat)
      else GoOut.ok ((none : Option String), t1)
    let displayName := dn.1
    let t3 := trimSpace dn.2
    let c0 ← goIdx t3 0
    let trip ←
      if c0 ≠ '<' then
        if displayName.isSome then
          GoOut.fail "invalid character following display name"
        else
          let e : Int :=
            match charIndex t3 ';' with
            | none => (t3.length : Int)
            | some i => (i : Int)
          GoOut.ok (e, e, t3)
      else
        let t := t3.drop 1
        let e : Int :=
          match charIndex t '>' with
          | none => -1
          | some i => (i : Int)
        if e = 0 then
          GoOut.fail "opening angle bracket without closing one"
        else GoOut.ok (e, e + 1, t)
    let uriText ← goTake trip.2.2 trip.1
    let uri ← ParseUri uriText
    if trip.2.1 ≥ (trip.2.2.length : Int) then
      GoOut.ok (displayName, uri, newParams)
    else do
      let pr ← goDrop trip.2.2 trip.2.1
      match parseParams pr ';' ';' ',' true true with
      | .ok r => GoOut.ok (displayName, uri, r.1)
      | .error e => GoOut.fail e

/-- parseAddressValues's scanning loop from the source: iterate over the
comma-appended text tracking angle-bracket and quote state; each comma
outside both delimits a section handed to parseAddressValue. -/
def parseAddressValuesAux (full : List Char) :
    List Char → Nat → Nat → Bool → Bool →
    GoOut (List (Option String) × List Uri × List Params)
  | [], _, _, _, _ => .ok ([], [], [])
  | c :: rest, idx, prevIdx, inB, inQ =>
    if c = '<' && !inQ then
      parseAddressValuesAux full rest (idx + 1) prevIdx true inQ
    else if c = '>' && !inQ then
      parseAddressValuesAux full rest (idx + 1) prevIdx false inQ
    else if c = '"' then
      parseAddressValuesAux full rest (idx + 1) prevIdx inB (!inQ)
    else if !inQ && !inB && c = ',' then
      (parseAddressValue ((full.take idx).drop prevIdx)).bind (fun dup =>
        (parseAddressValuesAux full rest (idx + 1) (idx + 1) inB inQ).bind
          (fun tl =>
            .ok (dup.1 :: tl.1, dup.2.1 :: tl.2.1, dup.2.2 :: tl.2.2)))
    else
      parseAddressValuesAux full rest (idx + 1) prevIdx inB inQ

/-- parseAddressValues from the source: append a trailing comma and run
the scanning loop from the start. -/
def parseAddressValues (addresses : String) :
    GoOut (List (Option String) × List Uri × List Params) :=
  let full := addresses.data ++ [',']
  parseAddressValuesAux full full 0 0 false false

/-- C3: the claim says the parser never panics and every parsing function
returns a message or a typed error. The address parser panics: for the
field text "sip:a@b, ,sip:c@d" the first section parses, and the
whitespace-only second section is trimmed to the empty string, after which
the source evaluates addressText[0] - an index out of range panic, not a
typed error. -/
theorem c3_address_parser_crashes :
    parseAddressValues "sip:a@b, ,sip:c@d" = GoOut.crash ∧
    parseAddressValue [' '] = GoOut.crash := by
  exact ⟨by decide, by decide⟩

end SipGo
